import Mathlib

/-!
Verification of the inventory-application core (drawer store, undo/redo
history, and bulk/import record resolution).

The Python source is embedded shallowly:

* the sqlite `drawers` table becomes an association list from
  `(cabinet, row, column)` keys to `(name, qty)` values, with
  `INSERT OR REPLACE` modelled as in-place replacement / append;
* `InventoryManager`'s in-memory history and redo stacks become lists whose
  head is the top of the stack;
* Python string operations used by the parsing paths (`split`, `strip`,
  `upper`, `lower`, `find`, `rfind`, slicing, `int(...)`) are modelled by
  executable functions over the underlying character lists;
* a write that can fail at the storage layer is modelled by a boolean
  failure-injection parameter; `none` / a `true` flag stands for a raised
  exception.
-/

namespace Inventory

/-- Python-style whitespace test (the ASCII subset relevant to str.strip). -/
def isPySpace (c : Char) : Bool :=
  c = ' ' || c = '\t' || c = '\n' || c = '\r' || c = '\x0b' || c = '\x0c'

/-- Python str.strip(): remove leading and trailing whitespace. -/
def pyStrip (s : String) : String :=
  String.mk (((s.toList.dropWhile isPySpace).reverse.dropWhile isPySpace).reverse)

/-- Python str.upper() (ASCII). -/
def pyUpper (s : String) : String := String.mk (s.toList.map Char.toUpper)

/-- Python str.lower() (ASCII). -/
def pyLower (s : String) : String := String.mk (s.toList.map Char.toLower)

/-- Helper for pySplit: accumulate the current field in reverse. -/
def splitChar (sep : Char) : List Char → List Char → List (List Char)
  | [], acc => [acc.reverse]
  | c :: cs, acc =>
      if c = sep then acc.reverse :: splitChar sep cs []
      else splitChar sep cs (c :: acc)

/-- Python str.split(sep) for a one-character separator. -/
def pySplit (sep : Char) (s : String) : List String :=
  (splitChar sep s.toList []).map String.mk

/-- Python sep.join(parts) for a one-character separator. -/
def pyJoin (sep : Char) : List String → String
  | [] => ""
  | [x] => x
  | x :: y :: xs => x ++ String.mk [sep] ++ pyJoin sep (y :: xs)

/-- Helper for pyFind / pyRfind: index of the first occurrence, counting from i. -/
def findIdx (c : Char) : List Char → Nat → Option Nat
  | [], _ => none
  | x :: xs, i => if x = c then some i else findIdx c xs (i + 1)

/-- Python str.find for a single character; none models the -1 result. -/
def pyFind (c : Char) (s : String) : Option Nat := findIdx c s.toList 0

/-- Python str.rfind for a single character; none models the -1 result. -/
def pyRfind (c : Char) (s : String) : Option Nat :=
  (findIdx c s.toList.reverse 0).map (fun i => s.toList.length - 1 - i)

/-- Python s[a:b] for the in-range, non-negative slices the code takes. -/
def pySlice (s : String) (a b : Nat) : String :=
  String.mk ((s.toList.drop a).take (b - a))

/-- Helper for pyInt?: value of a non-empty all-digit string. -/
def digitsValAux : List Char → Nat → Option Nat
  | [], acc => some acc
  | c :: cs, acc =>
      if c.isDigit then digitsValAux cs (acc * 10 + (c.toNat - 48)) else none

/-- Python int(str): strips whitespace, then an optional sign and one or more
ASCII digits (underscore separators and non-ASCII digits are not modelled;
none of the inputs exercised below use them). none models a raised
ValueError. -/
def pyInt? (s : String) : Option Int :=
  match (pyStrip s).toList with
  | [] => none
  | '-' :: rest =>
      if rest = [] then none else (digitsValAux rest 0).map (fun n => -(n : Int))
  | '+' :: rest =>
      if rest = [] then none else (digitsValAux rest 0).map (fun n => (n : Int))
  | l => (digitsValAux l 0).map (fun n => (n : Int))

/-- One stored drawer value: free-text label and quantity.
In `inventory_manager.py` the `name or ""` / `qty or 0` coercions only turn
sqlite NULLs into defaults; the model stores the values directly, so they are
the identity here. -/
structure Drawer where
  name : String
  qty : Int
deriving DecidableEq, Repr

/-- The canonical empty/deleted drawer state. -/
def emptyDrawer : Drawer := { name := "", qty := 0 }

/-- Primary key of the `drawers` table: (cabinet, row, column). -/
structure DBKey where
  cabinet : String
  row : String
  column : String
deriving DecidableEq, Repr

/-- Association-list lookup (first binding wins, as for a Python dict / a
primary-keyed table). -/
def assocLookup {α β : Type} [DecidableEq α] : List (α × β) → α → Option β
  | [], _ => none
  | (k, v) :: rest, a => if k = a then some v else assocLookup rest a

/-- Association-list insert-or-replace: replaces in place if the key is
present (Python dict assignment / INSERT OR REPLACE), else appends. -/
def assocInsert {α β : Type} [DecidableEq α] : List (α × β) → α → β → List (α × β)
  | [], a, b => [(a, b)]
  | (k, v) :: rest, a, b =>
      if k = a then (a, b) :: rest else (k, v) :: assocInsert rest a b

/-- The persisted `drawers` table. -/
abbrev DB := List (DBKey × Drawer)

/-- An in-memory inventory map, as returned by get_inventory (a Python dict,
so an insertion-ordered association list). -/
abbrev Inv := List (String × Drawer)

/-- drawer_id[0].upper(): the stored row text. Only used behind the
len(drawer_id) >= 2 guards, so the default for an empty id is irrelevant. -/
def rowOf (drawer_id : String) : String :=
  String.mk [(drawer_id.toList.headD ' ').toUpper]

/-- drawer_id[1:]: the stored column text (not case-normalized by the code). -/
def colOf (drawer_id : String) : String := String.mk (drawer_id.toList.drop 1)

/-- The (cabinet, row, column) key a drawer_id/cabinet pair addresses. -/
def keyOf (drawer_id cabinet : String) : DBKey :=
  { cabinet := cabinet, row := rowOf drawer_id, column := colOf drawer_id }

/-- InventoryManager.get_drawer: single-record fetch with the `{"name": "",
"qty": 0}` default for malformed ids (length < 2) and missing rows. -/
def get_drawer (db : DB) (drawer_id cabinet : String) : Drawer :=
  if drawer_id.length < 2 then emptyDrawer
  else
    match assocLookup db (keyOf drawer_id cabinet) with
    | some r => { name := r.name, qty := r.qty }
    | none => emptyDrawer

/-- InventoryManager._update_drawer_in_db on the success path: no-op for
malformed ids (length < 2), otherwise INSERT OR REPLACE at the normalized
key. -/
def update_drawer_in_db (db : DB) (drawer_id name : String) (qty : Int)
    (cabinet : String) : DB :=
  if drawer_id.length < 2 then db
  else assocInsert db (keyOf drawer_id cabinet) { name := name, qty := qty }

/-- The row loop of InventoryManager.get_inventory: builds the dict
key = f"{row}{column}".upper() from the rows of the given cabinet. -/
def get_inventory_rows (cabinet : String) : DB → Inv → Inv
  | [], inv => inv
  | (k, v) :: rest, inv =>
      if k.cabinet = cabinet then
        get_inventory_rows cabinet rest
          (assocInsert inv (pyUpper (k.row ++ k.column)) { name := v.name, qty := v.qty })
      else get_inventory_rows cabinet rest inv

/-- InventoryManager.get_inventory. -/
def get_inventory (db : DB) (cabinet : String) : Inv := get_inventory_rows cabinet db []

/-- The 'type' tag of a recorded action: 'update' or 'delete' (the code's
tag for what the spec calls a Create, whose inverse is reset-to-empty). -/
inductive ActionType where
  | update
  | delete
deriving DecidableEq, Repr

/-- The action_data dict recorded by InventoryManager.update_drawer. -/
structure Action where
  id : String
  cabinet : String
  prev_name : String
  prev_qty : Int
  new_name : String
  new_qty : Int
  type : ActionType
deriving DecidableEq, Repr

/-- The mutable state of an InventoryManager: the database plus the two
in-memory stacks, with the head of each list as the top of the stack. -/
structure IMState where
  db : DB
  action_history : List Action
  redo_stack : List Action
deriving DecidableEq, Repr

/-- The action_data built by update_drawer from the prior drawer value:
type 'delete' iff old was exactly {"": , 0}. -/
def mkAction (db : DB) (drawer_id new_name : String) (new_qty : Int)
    (cabinet : String) : Action :=
  let old := get_drawer db drawer_id cabinet
  { id := drawer_id, cabinet := cabinet,
    prev_name := old.name, prev_qty := old.qty,
    new_name := new_name, new_qty := new_qty,
    type := if old.name = "" ∧ old.qty = 0 then ActionType.delete else ActionType.update }

/-- InventoryManager.update_drawer with failure injection for the store
write. It reads the prior value, records the action (_record_action appends
to the history and clears the redo stack) and only then performs the write.
The Bool result models whether the call raised: a short id returns before
touching storage, so it cannot raise; otherwise a failing write raises after
the action was already recorded. -/
def update_drawer_attempt (writeFails : Bool) (st : IMState)
    (drawer_id new_name : String) (new_qty : Int) (cabinet : String) :
    IMState × Bool :=
  let act := mkAction st.db drawer_id new_name new_qty cabinet
  let st1 : IMState :=
    { st with action_history := act :: st.action_history, redo_stack := [] }
  if drawer_id.length < 2 then (st1, false)
  else if writeFails then (st1, true)
  else ({ st1 with db := update_drawer_in_db st.db drawer_id new_name new_qty cabinet }, false)

/-- InventoryManager.update_drawer on the success path. -/
def update_drawer (st : IMState) (drawer_id new_name : String) (new_qty : Int)
    (cabinet : String) : IMState :=
  (update_drawer_attempt false st drawer_id new_name new_qty cabinet).1

/-- The inverse write performed by undo: previous values for an 'update'
action, reset to empty/zero for a 'delete' action. -/
def undoApplyDb (db : DB) (a : Action) : DB :=
  match a.type with
  | ActionType.update => update_drawer_in_db db a.id a.prev_name a.prev_qty a.cabinet
  | ActionType.delete => update_drawer_in_db db a.id "" 0 a.cabinet

/-- InventoryManager.undo: false on empty history, else pop, apply the
inverse write, and push onto the redo stack. -/
def undo (st : IMState) : Bool × IMState :=
  match st.action_history with
  | [] => (false, st)
  | a :: rest =>
      (true, { db := undoApplyDb st.db a,
               action_history := rest,
               redo_stack := a :: st.redo_stack })

/-- InventoryManager.redo: false on empty redo stack, else pop, re-apply the
new values, and push back onto the history. -/
def redo (st : IMState) : Bool × IMState :=
  match st.redo_stack with
  | [] => (false, st)
  | a :: rest =>
      (true, { db := update_drawer_in_db st.db a.id a.new_name a.new_qty a.cabinet,
               action_history := a :: st.action_history,
               redo_stack := rest })

/-- The small-drawer rows of utilities.py. -/
def smallRows : List Char := ['A', 'B', 'C', 'D']

/-- The large-drawer rows of utilities.py. -/
def largeRows : List Char := ['E', 'F', 'G']

/-- utilities.generate_all_drawer_keys: rows A-D with columns 1..9 followed by
rows E-G with columns 1..4, in loop order. -/
def generate_all_drawer_keys : List String :=
  (smallRows.flatMap fun r => (List.range' 1 9).map fun c => String.mk [r] ++ toString c) ++
  (largeRows.flatMap fun r => (List.range' 1 4).map fun c => String.mk [r] ++ toString c)

/-- The body of the pad_inventory loops for one key:
`if key not in inventory: inventory[key] = {"name": "", "qty": 0}`. -/
def padKey (inv : Inv) (key : String) : Inv :=
  if (assocLookup inv key).isSome then inv else assocInsert inv key emptyDrawer

/-- utilities.pad_inventory. Its two nested row/column loops enumerate
exactly the keys of generate_all_drawer_keys in the same order, so the
padding is a fold of padKey over that enumeration. -/
def pad_inventory (inventory : Inv) : Inv :=
  generate_all_drawer_keys.foldl padKey inventory

/-- The name-match generator of app.bulk_update / import_txt:
next((loc for loc, val in inventory.items()
      if val.get('name', '').lower() == name.lower()), None). -/
def find_name_match (inventory : Inv) (name : String) : Option String :=
  (inventory.find? (fun kv => pyLower kv.2.name = pyLower name)).map (fun kv => kv.1)

/-- Lexicographic comparison of character lists by code point, as Python
compares strings. -/
def charListLe : List Char → List Char → Bool
  | [], _ => true
  | _ :: _, [] => false
  | a :: as, b :: bs =>
      if a.toNat < b.toNat then true
      else if b.toNat < a.toNat then false
      else charListLe as bs

/-- Python string comparison a <= b (code-point lexicographic). -/
def pyStrLe (a b : String) : Bool := charListLe a.toList b.toList

/-- sorted(list(set(generate_all_drawer_keys()) - used_keys)) where used_keys
is the key set of a fresh get_inventory fetch. generate_all_drawer_keys has
no duplicates, so the set difference is a filter; sorted is the ascending
code-point lexicographic order on the keys, as Python sorted() orders
strings. -/
def available_keys (db : DB) (cabinet : String) : List String :=
  (generate_all_drawer_keys.filter
      (fun k => !(assocLookup (get_inventory db cabinet) k).isSome)).insertionSort
    (fun a b => pyStrLe a b = true)

/-- app.bulk_update, one already-split-and-stripped 3-field line
(location, name, qty): qty == 0 clears the drawer, otherwise the supplied
name/qty are written; an unparseable qty skips the line. -/
def bulk_three (st : IMState) (location name qtyStr cabinet : String) : IMState :=
  match pyInt? qtyStr with
  | none => st
  | some qty =>
      if qty = 0 then update_drawer st (pyUpper location) "" 0 cabinet
      else update_drawer st (pyUpper location) (pyStrip name) qty cabinet

/-- app.bulk_update, one already-split-and-stripped 2-field line.
`inventory` is the padded snapshot taken once before the loop; the
first-available-key branch refetches the unpadded inventory from the live
database. -/
def bulk_two (st : IMState) (inventory : Inv) (first second cabinet : String) : IMState :=
  if (assocLookup inventory (pyUpper first)).isSome then
    match pyInt? second with
    | none => st
    | some qty =>
        if qty = 0 then update_drawer st (pyUpper first) "" 0 cabinet
        else
          update_drawer st (pyUpper first)
            ((assocLookup inventory (pyUpper first)).getD emptyDrawer).name qty cabinet
  else
    match pyInt? second with
    | none => st
    | some qty =>
        let name := pyStrip first
        match find_name_match inventory name with
        | some m =>
            if qty = 0 then update_drawer st m "" 0 cabinet
            else update_drawer st m name qty cabinet
        | none =>
            match (available_keys st.db cabinet).head? with
            | some location => update_drawer st location name qty cabinet
            | none => st

/-- app.bulk_update, one raw line: split on commas, strip each part, then
dispatch on the field count; other field counts are skipped. -/
def bulk_update_line (inventory : Inv) (cabinet : String) (st : IMState)
    (line : String) : IMState :=
  match (pySplit ',' line).map pyStrip with
  | [location, name, qty] => bulk_three st location name qty cabinet
  | [first, second] => bulk_two st inventory first second cabinet
  | _ => st

/-- The app.bulk_update loop over the non-empty stripped input lines, with
the padded inventory snapshot taken once up front. -/
def bulk_update_run (st : IMState) (lines : List String) (cabinet : String) : IMState :=
  let inventory := pad_inventory (get_inventory st.db cabinet)
  lines.foldl (bulk_update_line inventory cabinet) st

/-- ImportManager.import_txt, first shape "id: name (quantity)": gated on the
line containing ':', '(' and ')'; splits on ':', takes parts[0] as the id and
rejoins the rest; quantity is the span between the first '(' (str.find) and
the last ')' (str.rfind); none models drawer_id staying None (parse failure
or a ValueError from int), which falls through to the comma parser. -/
def txt_first_format (line : String) : Option (String × String × Int) :=
  if (':' ∈ line.toList) ∧ ('(' ∈ line.toList) ∧ (')' ∈ line.toList) then
    let parts := pySplit ':' line
    let drawer_id_part := pyUpper (pyStrip (parts.headD ""))
    let name_qty_part := pyStrip (pyJoin ':' (parts.drop 1))
    match pyFind '(' name_qty_part, pyRfind ')' name_qty_part with
    | some name_start, some name_end =>
        if name_start < name_end then
          match pyInt? (pyStrip (pySlice name_qty_part (name_start + 1) name_end)) with
          | some qty => some (drawer_id_part, pyStrip (pySlice name_qty_part 0 name_start), qty)
          | none => none
        else none
    | _, _ => none
  else none

/-- ImportManager.import_txt, comma-separated fallback on the already-split
stripped parts: 3 fields are taken positionally (no qty == 0 special case);
2 fields resolve by existing key, then case-insensitive name match, then
first available key; other field counts, parse failures and a full cabinet
skip the line (none). -/
def txt_comma_resolve (db : DB) (cabinet : String) (parts : List String) :
    Option (String × String × Int) :=
  match parts with
  | [p0, p1, p2] =>
      match pyInt? p2 with
      | some qty => some (pyUpper p0, p1, qty)
      | none => none
  | [p0, p1] =>
      match pyInt? p1 with
      | none => none
      | some potential_qty =>
          if (assocLookup (get_inventory db cabinet) (pyUpper p0)).isSome then
            some (pyUpper p0, (get_drawer db (pyUpper p0) cabinet).name, potential_qty)
          else
            match find_name_match (get_inventory db cabinet) p0 with
            | some matched_id => some (matched_id, p0, potential_qty)
            | none =>
                match (available_keys db cabinet).head? with
                | some k => some (k, p0, potential_qty)
                | none => none
  | _ => none

/-- The final `if drawer_id:` of the import_txt loop body: a resolved record
with a truthy (non-empty) id is applied through update_drawer, anything else
leaves the state alone. -/
def txt_apply (st : IMState) (cabinet : String) :
    Option (String × String × Int) → IMState
  | some (drawer_id, name, qty) =>
      if drawer_id ≠ "" then update_drawer st drawer_id name qty cabinet else st
  | none => st

/-- ImportManager.import_txt, one raw line: strip, skip blank lines, try the
"id: name (quantity)" shape, else the comma parser, then apply. -/
def import_txt_line (cabinet : String) (st : IMState) (rawLine : String) : IMState :=
  let line := pyStrip rawLine
  if line = "" then st
  else
    match txt_first_format line with
    | some r => txt_apply st cabinet (some r)
    | none => txt_apply st cabinet (txt_comma_resolve st.db cabinet ((pySplit ',' line).map pyStrip))

/-- The ImportManager.import_txt loop over the lines of the file. -/
def import_txt_run (st : IMState) (lines : List String) (cabinet : String) : IMState :=
  lines.foldl (import_txt_line cabinet) st

/-- Modelled from the spec, for comparison with txt_first_format only (claim
C8): the claim's reading of the "ID: NAME (QTY)" shape, in which the
quantity comes from the last matching parenthesis pair of the remainder,
with the text before that pair as the name. -/
def spec_txt_last_pair (line : String) : Option (String × String × Int) :=
  match pyFind ':' line with
  | none => none
  | some i =>
      let idPart := pyUpper (pyStrip (pySlice line 0 i))
      let rest := pyStrip (pySlice line (i + 1) line.length)
      match pyRfind '(' rest with
      | none => none
      | some o =>
          match pyFind ')' (pySlice rest (o + 1) rest.length) with
          | none => none
          | some jrel =>
              match pyInt? (pyStrip (pySlice rest (o + 1) (o + 1 + jrel))) with
              | some q => some (idPart, pyStrip (pySlice rest 0 o), q)
              | none => none

theorem assocLookup_insert {α β : Type} [DecidableEq α] (l : List (α × β))
    (a c : α) (b : β) :
    assocLookup (assocInsert l a b) c = if c = a then some b else assocLookup l c := by
  induction l with
  | nil =>
      simp only [assocInsert, assocLookup]
      by_cases hca : c = a
      · subst hca
        simp
      · rw [if_neg (fun h => hca h.symm), if_neg hca]
  | cons kv rest ih =>
      obtain ⟨k, v⟩ := kv
      simp only [assocInsert]
      by_cases hka : k = a
      · subst hka
        simp only [if_pos rfl, assocLookup]
        by_cases hck : c = k
        · subst hck
          simp
        · rw [if_neg (fun h => hck h.symm), if_neg hck, if_neg (fun h => hck h.symm)]
      · rw [if_neg hka]
        simp only [assocLookup, ih]
        by_cases hkc : k = c
        · subst hkc
          rw [if_pos rfl, if_neg hka, if_pos rfl]
        · rw [if_neg hkc]
          by_cases hca : c = a
          · rw [if_pos hca, if_pos hca]
          · rw [if_neg hca, if_neg hca, if_neg hkc]

theorem assocInsert_self_mem {α β : Type} [DecidableEq α] (l : List (α × β))
    (a : α) (b : β) : (a, b) ∈ assocInsert l a b := by
  induction l with
  | nil => simp [assocInsert]
  | cons kv rest ih =>
      obtain ⟨k, v⟩ := kv
      by_cases hka : k = a <;> simp [assocInsert, hka, ih]

theorem get_drawer_update (db : DB) (id nm : String) (q : Int) (C qid qcab : String) :
    get_drawer (update_drawer_in_db db id nm q C) qid qcab =
      if ¬ id.length < 2 ∧ ¬ qid.length < 2 ∧ keyOf qid qcab = keyOf id C then
        { name := nm, qty := q }
      else get_drawer db qid qcab := by
  by_cases hid : id.length < 2
  · simp [update_drawer_in_db, hid]
  · by_cases hqid : qid.length < 2
    · simp [update_drawer_in_db, get_drawer, hid, hqid]
    · by_cases hk : keyOf qid qcab = keyOf id C
      · simp [update_drawer_in_db, get_drawer, hid, hqid, hk, assocLookup_insert]
      · simp [update_drawer_in_db, get_drawer, hid, hqid, hk, assocLookup_insert]

theorem get_drawer_eq_of_keyOf (db : DB) (qid qcab id C : String)
    (hqid : ¬ qid.length < 2) (hid : ¬ id.length < 2)
    (hk : keyOf qid qcab = keyOf id C) :
    get_drawer db qid qcab = get_drawer db id C := by
  simp [get_drawer, hqid, hid, hk]

/-- Two database states are observationally equivalent when every
get_drawer read agrees. -/
def dbEquiv (db1 db2 : DB) : Prop :=
  ∀ id cab : String, get_drawer db1 id cab = get_drawer db2 id cab

theorem dbEquiv_refl (db : DB) : dbEquiv db db := fun _ _ => rfl

theorem dbEquiv_trans {db1 db2 db3 : DB} (h1 : dbEquiv db1 db2)
    (h2 : dbEquiv db2 db3) : dbEquiv db1 db3 :=
  fun id cab => (h1 id cab).trans (h2 id cab)

theorem dbEquiv_update {db1 db2 : DB} (h : dbEquiv db1 db2)
    (id nm : String) (q : Int) (C : String) :
    dbEquiv (update_drawer_in_db db1 id nm q C) (update_drawer_in_db db2 id nm q C) := by
  intro qid qcab
  rw [get_drawer_update, get_drawer_update, h qid qcab]

theorem dbEquiv_undoApply {db1 db2 : DB} (h : dbEquiv db1 db2) (a : Action) :
    dbEquiv (undoApplyDb db1 a) (undoApplyDb db2 a) := by
  cases ha : a.type <;> simp [undoApplyDb, ha] <;> exact dbEquiv_update h _ _ _ _

theorem update_drawer_db (st : IMState) (id nm : String) (q : Int) (C : String) :
    (update_drawer st id nm q C).db = update_drawer_in_db st.db id nm q C := by
  by_cases hid : id.length < 2 <;>
    simp [update_drawer, update_drawer_attempt, update_drawer_in_db, hid]

theorem update_drawer_hist (st : IMState) (id nm : String) (q : Int) (C : String) :
    (update_drawer st id nm q C).action_history
      = mkAction st.db id nm q C :: st.action_history := by
  by_cases hid : id.length < 2 <;>
    simp [update_drawer, update_drawer_attempt, hid]

theorem update_drawer_redo (st : IMState) (id nm : String) (q : Int) (C : String) :
    (update_drawer st id nm q C).redo_stack = [] := by
  by_cases hid : id.length < 2 <;>
    simp [update_drawer, update_drawer_attempt, hid]

theorem undo_cons (st : IMState) (a : Action) (rest : List Action)
    (h : st.action_history = a :: rest) :
    undo st = (true, { db := undoApplyDb st.db a,
                       action_history := rest,
                       redo_stack := a :: st.redo_stack }) := by
  unfold undo
  rw [h]

theorem redo_cons (st : IMState) (a : Action) (rest : List Action)
    (h : st.redo_stack = a :: rest) :
    redo st = (true, { db := update_drawer_in_db st.db a.id a.new_name a.new_qty a.cabinet,
                       action_history := a :: st.action_history,
                       redo_stack := rest }) := by
  unfold redo
  rw [h]

theorem undoApply_inverts (db : DB) (id nm : String) (q : Int) (C : String) :
    dbEquiv (undoApplyDb (update_drawer_in_db db id nm q C) (mkAction db id nm q C)) db := by
  intro qid qcab
  by_cases hnew : (get_drawer db id C).name = "" ∧ (get_drawer db id C).qty = 0
  · have htype : (mkAction db id nm q C).type = ActionType.delete := by
      simp [mkAction, hnew]
    have hfields : (mkAction db id nm q C).id = id ∧ (mkAction db id nm q C).cabinet = C := by
      simp [mkAction]
    rw [undoApplyDb, htype, hfields.1, hfields.2]
    rw [get_drawer_update]
    by_cases hcond : ¬ id.length < 2 ∧ ¬ qid.length < 2 ∧ keyOf qid qcab = keyOf id C
    · rw [if_pos hcond]
      rw [get_drawer_eq_of_keyOf db qid qcab id C hcond.2.1 hcond.1 hcond.2.2]
      have hedr : get_drawer db id C = emptyDrawer := by
        cases hgd : get_drawer db id C
        rw [hgd] at hnew
        simp only at hnew
        simp [emptyDrawer, hnew.1, hnew.2]
      rw [hedr]
      rfl
    · rw [if_neg hcond, get_drawer_update, if_neg hcond]
  · have htype : (mkAction db id nm q C).type = ActionType.update := by
      simp only [mkAction]
      rw [if_neg hnew]
    have hfields : (mkAction db id nm q C).id = id ∧ (mkAction db id nm q C).cabinet = C ∧
        (mkAction db id nm q C).prev_name = (get_drawer db id C).name ∧
        (mkAction db id nm q C).prev_qty = (get_drawer db id C).qty := by
      simp [mkAction]
    rw [undoApplyDb, htype, hfields.1, hfields.2.1, hfields.2.2.1, hfields.2.2.2]
    rw [get_drawer_update]
    by_cases hcond : ¬ id.length < 2 ∧ ¬ qid.length < 2 ∧ keyOf qid qcab = keyOf id C
    · rw [if_pos hcond]
      rw [get_drawer_eq_of_keyOf db qid qcab id C hcond.2.1 hcond.1 hcond.2.2]
    · rw [if_neg hcond, get_drawer_update, if_neg hcond]

/-- One update_drawer request: drawer id, new name, new quantity. -/
structure WriteReq where
  id : String
  name : String
  qty : Int
deriving DecidableEq, Repr

/-- A sequence of successful update_drawer calls in cabinet C. -/
def applyWrites (C : String) : IMState → List WriteReq → IMState
  | st, [] => st
  | st, w :: ws => applyWrites C (update_drawer st w.id w.name w.qty C) ws

/-- The same sequence of writes at the database level. -/
def applyWritesDb (C : String) : DB → List WriteReq → DB
  | db, [] => db
  | db, w :: ws => applyWritesDb C (update_drawer_in_db db w.id w.name w.qty C) ws

/-- The actions a sequence of writes records, in write order. -/
def actsOf (C : String) : DB → List WriteReq → List Action
  | _, [] => []
  | db, w :: ws =>
      mkAction db w.id w.name w.qty C ::
        actsOf C (update_drawer_in_db db w.id w.name w.qty C) ws

/-- Calling undo n times. -/
def undoN (n : Nat) (st : IMState) : IMState := (fun s => (undo s).2)^[n] st

/-- Calling redo n times. -/
def redoN (n : Nat) (st : IMState) : IMState := (fun s => (redo s).2)^[n] st

theorem applyWrites_db (C : String) :
    ∀ (ws : List WriteReq) (st : IMState),
      (applyWrites C st ws).db = applyWritesDb C st.db ws := by
  intro ws
  induction ws with
  | nil => intro st; rfl
  | cons w ws ih =>
      intro st
      simp only [applyWrites, applyWritesDb, ih, update_drawer_db]

theorem undoN_applyWrites (C : String) :
    ∀ (ws : List WriteReq) (st : IMState),
      dbEquiv (undoN ws.length (applyWrites C st ws)).db st.db ∧
      (undoN ws.length (applyWrites C st ws)).action_history = st.action_history ∧
      (undoN ws.length (applyWrites C st ws)).redo_stack
        = (if ws = [] then st.redo_stack else actsOf C st.db ws) := by
  intro ws
  induction ws with
  | nil =>
      intro st
      exact ⟨dbEquiv_refl st.db, rfl, by simp [undoN, applyWrites]⟩
  | cons w ws ih =>
      intro st
      obtain ⟨ihdb, ihhist, ihredo⟩ := ih (update_drawer st w.id w.name w.qty C)
      set t := undoN ws.length (applyWrites C (update_drawer st w.id w.name w.qty C) ws) with ht
      have hiter : undoN (w :: ws).length (applyWrites C st (w :: ws)) = (undo t).2 := by
        show (fun s => (undo s).2)^[ws.length + 1] (applyWrites C (update_drawer st w.id w.name w.qty C) ws) = _
        rw [Function.iterate_succ_apply']
        rfl
      have thist : t.action_history = mkAction st.db w.id w.name w.qty C :: st.action_history := by
        rw [ihhist, update_drawer_hist]
      have hundo := undo_cons t _ _ thist
      refine ⟨?_, ?_, ?_⟩
      · rw [hiter, hundo]
        have h1 : dbEquiv t.db (update_drawer_in_db st.db w.id w.name w.qty C) := by
          have hd := ihdb
          rw [update_drawer_db] at hd
          exact hd
        have h2 := dbEquiv_undoApply h1 (mkAction st.db w.id w.name w.qty C)
        exact dbEquiv_trans h2 (undoApply_inverts st.db w.id w.name w.qty C)
      · rw [hiter, hundo]
      · rw [hiter, hundo]
        rw [if_neg (List.cons_ne_nil w ws)]
        show mkAction st.db w.id w.name w.qty C :: t.redo_stack = actsOf C st.db (w :: ws)
        by_cases hws : ws = []
        · subst hws
          simp only [if_pos rfl, update_drawer_redo] at ihredo
          rw [ihredo]
          rfl
        · rw [ihredo, if_neg hws, update_drawer_db]
          rfl

theorem redoN_replays (C : String) :
    ∀ (ws : List WriteReq) (db0 : DB) (st : IMState),
      dbEquiv st.db db0 → st.redo_stack = actsOf C db0 ws →
      dbEquiv (redoN ws.length st).db (applyWritesDb C db0 ws) := by
  intro ws
  induction ws with
  | nil =>
      intro db0 st hdb _
      exact hdb
  | cons w ws ih =>
      intro db0 st hdb hredo
      have hiter : redoN (ws.length + 1) st = redoN ws.length (redo st).2 := by
        simp [redoN, Function.iterate_succ_apply]
      have hract : st.redo_stack
          = mkAction db0 w.id w.name w.qty C
              :: actsOf C (update_drawer_in_db db0 w.id w.name w.qty C) ws := by
        rw [hredo]; rfl
      have hredo2 := redo_cons st _ _ hract
      rw [List.length_cons, hiter, hredo2]
      have hfields : (mkAction db0 w.id w.name w.qty C).id = w.id ∧
          (mkAction db0 w.id w.name w.qty C).new_name = w.name ∧
          (mkAction db0 w.id w.name w.qty C).new_qty = w.qty ∧
          (mkAction db0 w.id w.name w.qty C).cabinet = C := by
        simp [mkAction]
      show dbEquiv (redoN ws.length
        { db := update_drawer_in_db st.db _ _ _ _, action_history := _, redo_stack := _ }).db
        (applyWritesDb C db0 (w :: ws))
      rw [hfields.1, hfields.2.1, hfields.2.2.1, hfields.2.2.2]
      exact ih (update_drawer_in_db db0 w.id w.name w.qty C)
        { db := update_drawer_in_db st.db w.id w.name w.qty C,
          action_history := mkAction db0 w.id w.name w.qty C :: st.action_history,
          redo_stack := actsOf C (update_drawer_in_db db0 w.id w.name w.qty C) ws }
        (dbEquiv_update hdb w.id w.name w.qty C) rfl

theorem drawer_eq_empty_iff (d : Drawer) :
    d = emptyDrawer ↔ (d.name = "" ∧ d.qty = 0) := by
  constructor
  · intro h
    rw [h]
    exact ⟨rfl, rfl⟩
  · intro h
    cases d
    simp only [emptyDrawer, Drawer.mk.injEq]
    exact h

theorem undoApplyDb_delete (db : DB) (a : Action) (ha : a.type = ActionType.delete) :
    undoApplyDb db a = update_drawer_in_db db a.id "" 0 a.cabinet := by
  unfold undoApplyDb
  rw [ha]

theorem undoApplyDb_update (db : DB) (a : Action) (ha : a.type = ActionType.update) :
    undoApplyDb db a = update_drawer_in_db db a.id a.prev_name a.prev_qty a.cabinet := by
  unfold undoApplyDb
  rw [ha]

/-- Claim C1: for any sequence of n successful updateDrawer calls W1..Wn to
drawers in a cabinet C, starting from any store state with empty history,
calling undo() n times returns every drawer, as read by getDrawer, to its
pre-W1 state, and then calling redo() n times returns every drawer to its
post-Wn state. (Stated for all getDrawer reads, which covers every touched
drawer.) -/
theorem claim_C1_undo_redo_inverse (ws : List WriteReq) (C : String) (db0 : DB) :
    (∀ id cab, get_drawer (undoN ws.length (applyWrites C ⟨db0, [], []⟩ ws)).db id cab
        = get_drawer db0 id cab) ∧
    (∀ id cab,
        get_drawer (redoN ws.length (undoN ws.length (applyWrites C ⟨db0, [], []⟩ ws))).db id cab
          = get_drawer (applyWrites C ⟨db0, [], []⟩ ws).db id cab) := by
  obtain ⟨hdb, hhist, hredo⟩ := undoN_applyWrites C ws ⟨db0, [], []⟩
  constructor
  · exact hdb
  · by_cases hws : ws = []
    · subst hws
      intro id cab
      rfl
    · rw [if_neg hws] at hredo
      have hrep := redoN_replays C ws db0
        (undoN ws.length (applyWrites C ⟨db0, [], []⟩ ws)) hdb hredo
      intro id cab
      have happ : (applyWrites C ⟨db0, [], []⟩ ws).db = applyWritesDb C db0 ws :=
        applyWrites_db C ws ⟨db0, [], []⟩
      rw [happ]
      exact hrep id cab

/-- Claim C5: every new mutation through updateDrawer clears the redo list:
after any undo() followed by a new updateDrawer call (not a redo), redo()
returns false and leaves the state unchanged, so the previously undone
action is not re-applied. -/
theorem claim_C5_redo_invalidation (st : IMState) (id nm : String) (q : Int) (C : String) :
    (update_drawer (undo st).2 id nm q C).redo_stack = [] ∧
    redo (update_drawer (undo st).2 id nm q C)
      = (false, update_drawer (undo st).2 id nm q C) := by
  constructor
  · exact update_drawer_redo _ id nm q C
  · have h := update_drawer_redo (undo st).2 id nm q C
    unfold redo
    rw [h]

/-- Claim C6: a write to a drawer whose current stored state is exactly
{"", 0} records a Create-kind action (the code's 'delete' tag), any other
prior state records an Update-kind action (the code's 'update' tag); in both
cases undo() succeeds and restores the drawer, as read by getDrawer, to its
prior value ({"", 0} for Create, the previous name/qty for Update). -/
theorem claim_C6_create_update_classification (st : IMState) (id nm : String)
    (q : Int) (C : String) :
    (update_drawer st id nm q C).action_history.head? = some (mkAction st.db id nm q C) ∧
    (mkAction st.db id nm q C).type
      = (if get_drawer st.db id C = emptyDrawer then ActionType.delete else ActionType.update) ∧
    (undo (update_drawer st id nm q C)).1 = true ∧
    get_drawer (undo (update_drawer st id nm q C)).2.db id C = get_drawer st.db id C := by
  refine ⟨?_, ?_, ?_, ?_⟩
  · rw [update_drawer_hist]
    rfl
  · by_cases h : get_drawer st.db id C = emptyDrawer
    · rw [if_pos h]
      simp only [mkAction]
      rw [if_pos ((drawer_eq_empty_iff _).mp h)]
    · rw [if_neg h]
      simp only [mkAction]
      rw [if_neg (fun hc => h ((drawer_eq_empty_iff _).mpr hc))]
  · rw [undo_cons (update_drawer st id nm q C) _ _ (update_drawer_hist st id nm q C)]
  · rw [undo_cons (update_drawer st id nm q C) _ _ (update_drawer_hist st id nm q C)]
    show get_drawer (undoApplyDb (update_drawer st id nm q C).db (mkAction st.db id nm q C)) id C = _
    rw [update_drawer_db]
    exact undoApply_inverts st.db id nm q C id C

/-- Claim C7: updateDrawer records the action (appending it to the history
and clearing the redo list) strictly before performing the store write, so
when the store write fails and the error propagates to the caller (the true
flag), the action remains recorded while the store was never mutated. -/
theorem claim_C7_record_before_write (st : IMState) (id nm : String) (q : Int)
    (C : String) (h : ¬ id.length < 2) :
    (update_drawer_attempt true st id nm q C).2 = true ∧
    (update_drawer_attempt true st id nm q C).1.db = st.db ∧
    (update_drawer_attempt true st id nm q C).1.action_history
      = mkAction st.db id nm q C :: st.action_history ∧
    (update_drawer_attempt true st id nm q C).1.redo_stack = [] := by
  refine ⟨?_, ?_, ?_, ?_⟩ <;> simp [update_drawer_attempt, h]

/-- Witness for claim C7 at a concrete input. -/
theorem claim_C7_witness :
    (update_drawer_attempt true ⟨[], [], []⟩ "A1" "Widget" 5 "Default").2 = true ∧
    (update_drawer_attempt true ⟨[], [], []⟩ "A1" "Widget" 5 "Default").1.db = [] ∧
    (update_drawer_attempt true ⟨[], [], []⟩ "A1" "Widget" 5 "Default").1.action_history
      = mkAction [] "A1" "Widget" 5 "Default" :: [] ∧
    (update_drawer_attempt true ⟨[], [], []⟩ "A1" "Widget" 5 "Default").1.redo_stack = [] :=
  claim_C7_record_before_write ⟨[], [], []⟩ "A1" "Widget" 5 "Default" (by decide)

/-- Claim C9: for a drawer_id of length < 2 (including ""), update_drawer
returns normally without raising (even when the store would fail) and
modifies no stored record, yet it still appends an action to the history and
clears the redo stack; the resulting no-op entry is undoable: undo() returns
true and also leaves the store unchanged. -/
theorem claim_C9_short_id_noop (fails : Bool) (st : IMState) (id nm : String)
    (q : Int) (C : String) (h : id.length < 2) :
    (update_drawer_attempt fails st id nm q C).2 = false ∧
    (update_drawer_attempt fails st id nm q C).1.db = st.db ∧
    (update_drawer_attempt fails st id nm q C).1.action_history
      = mkAction st.db id nm q C :: st.action_history ∧
    (update_drawer_attempt fails st id nm q C).1.redo_stack = [] ∧
    (undo (update_drawer_attempt fails st id nm q C).1).1 = true ∧
    (undo (update_drawer_attempt fails st id nm q C).1).2.db = st.db := by
  have hst1 : (update_drawer_attempt fails st id nm q C).1
      = { st with action_history := mkAction st.db id nm q C :: st.action_history,
                  redo_stack := [] } := by
    simp [update_drawer_attempt, h]
  have hold : get_drawer st.db id C = emptyDrawer := by
    simp [get_drawer, h]
  have htype : (mkAction st.db id nm q C).type = ActionType.delete := by
    simp [mkAction, hold, emptyDrawer]
  refine ⟨?_, ?_, ?_, ?_, ?_, ?_⟩
  · simp [update_drawer_attempt, h]
  · rw [hst1]
  · rw [hst1]
  · rw [hst1]
  · rw [hst1, undo_cons _ (mkAction st.db id nm q C) st.action_history rfl]
  · rw [hst1, undo_cons _ (mkAction st.db id nm q C) st.action_history rfl]
    show undoApplyDb st.db (mkAction st.db id nm q C) = st.db
    rw [undoApplyDb_delete _ _ htype]
    have hid : (mkAction st.db id nm q C).id = id := rfl
    rw [hid]
    simp [update_drawer_in_db, h]

/-- Witness for claim C9 at a concrete input. -/
theorem claim_C9_witness :
    (update_drawer_attempt true ⟨[], [], []⟩ "A" "Widget" 5 "Default").2 = false ∧
    (update_drawer_attempt true ⟨[], [], []⟩ "A" "Widget" 5 "Default").1.db = [] ∧
    (update_drawer_attempt true ⟨[], [], []⟩ "A" "Widget" 5 "Default").1.action_history
      = mkAction [] "A" "Widget" 5 "Default" :: [] ∧
    (update_drawer_attempt true ⟨[], [], []⟩ "A" "Widget" 5 "Default").1.redo_stack = [] ∧
    (undo (update_drawer_attempt true ⟨[], [], []⟩ "A" "Widget" 5 "Default").1).1 = true ∧
    (undo (update_drawer_attempt true ⟨[], [], []⟩ "A" "Widget" 5 "Default").1).2.db = [] :=
  claim_C9_short_id_noop true ⟨[], [], []⟩ "A" "Widget" 5 "Default" (by decide)

theorem padKey_lookup_some (inv : Inv) (k0 k : String) (v : Drawer)
    (h : assocLookup inv k = some v) : assocLookup (padKey inv k0) k = some v := by
  unfold padKey
  by_cases hs : (assocLookup inv k0).isSome
  · rw [if_pos hs]
    exact h
  · rw [if_neg hs, assocLookup_insert]
    by_cases hk : k = k0
    · subst hk
      rw [h] at hs
      simp at hs
    · rw [if_neg hk]
      exact h

theorem padFold_lookup_some :
    ∀ (ks : List String) (inv : Inv) (k : String) (v : Drawer),
      assocLookup inv k = some v → assocLookup (ks.foldl padKey inv) k = some v := by
  intro ks
  induction ks with
  | nil =>
      intro inv k v h
      exact h
  | cons k0 rest ih =>
      intro inv k v h
      rw [List.foldl_cons]
      exact ih _ _ _ (padKey_lookup_some inv k0 k v h)

theorem padFold_isSome (ks : List String) (inv : Inv) (k : String)
    (h : (assocLookup inv k).isSome) : (assocLookup (ks.foldl padKey inv) k).isSome := by
  obtain ⟨v, hv⟩ := Option.isSome_iff_exists.mp h
  rw [padFold_lookup_some ks inv k v hv]
  rfl

theorem padFold_contains :
    ∀ (ks : List String) (inv : Inv) (k : String), k ∈ ks →
      (assocLookup (ks.foldl padKey inv) k).isSome := by
  intro ks
  induction ks with
  | nil =>
      intro inv k h
      cases h
  | cons k0 rest ih =>
      intro inv k h
      rw [List.foldl_cons]
      rcases List.mem_cons.mp h with h0 | hr
      · subst h0
        apply padFold_isSome
        unfold padKey
        by_cases hs : (assocLookup inv k).isSome
        · rw [if_pos hs]
          exact hs
        · rw [if_neg hs, assocLookup_insert, if_pos rfl]
          rfl
      · exact ih _ _ hr

theorem padKey_lookup_none_other (inv : Inv) (k0 k : String) (hne : k ≠ k0)
    (h : assocLookup inv k = none) : assocLookup (padKey inv k0) k = none := by
  unfold padKey
  by_cases hs : (assocLookup inv k0).isSome
  · rw [if_pos hs]
    exact h
  · rw [if_neg hs, assocLookup_insert, if_neg hne]
    exact h

theorem padFold_lookup_none :
    ∀ (ks : List String) (inv : Inv) (k : String), k ∈ ks →
      assocLookup inv k = none →
      assocLookup (ks.foldl padKey inv) k = some emptyDrawer := by
  intro ks
  induction ks with
  | nil =>
      intro inv k h
      cases h
  | cons k0 rest ih =>
      intro inv k hmem h
      rw [List.foldl_cons]
      by_cases hk : k = k0
      · subst hk
        have hpk : assocLookup (padKey inv k) k = some emptyDrawer := by
          unfold padKey
          rw [if_neg (by rw [h]; simp), assocLookup_insert, if_pos rfl]
        exact padFold_lookup_some rest _ _ _ hpk
      · rcases List.mem_cons.mp hmem with h0 | hr
        · exact absurd h0 hk
        · exact ih _ _ hr (padKey_lookup_none_other inv k0 k hk h)

/-- Counterexample to claim C4 as stated: the canonical key-space (rows A-D
with columns 1-9 and rows E-G with columns 1-4) enumerated by the code has
48 keys, not 31. -/
theorem claim_C4_counterexample :
    generate_all_drawer_keys.length = 48 ∧ ¬ generate_all_drawer_keys.length = 31 := by
  constructor <;> decide

/-- Claim C4 (amended: 48 canonical keys, not 31): for every inventory map
m, pad_inventory m contains every one of the 48 canonical keys; every
canonical key absent from m is bound to {name: "", qty: 0}; every entry
already present in m, including entries for keys outside the canonical
key-space, is left unchanged. -/
theorem claim_C4_amended :
    (∀ (m : Inv) (k : String), k ∈ generate_all_drawer_keys →
        (assocLookup (pad_inventory m) k).isSome) ∧
    (∀ (m : Inv) (k : String), k ∈ generate_all_drawer_keys →
        assocLookup m k = none → assocLookup (pad_inventory m) k = some emptyDrawer) ∧
    (∀ (m : Inv) (k : String) (v : Drawer), assocLookup m k = some v →
        assocLookup (pad_inventory m) k = some v) := by
  refine ⟨?_, ?_, ?_⟩
  · intro m k hk
    exact padFold_contains generate_all_drawer_keys m k hk
  · intro m k hk hnone
    exact padFold_lookup_none generate_all_drawer_keys m k hk hnone
  · intro m k v hv
    exact padFold_lookup_some generate_all_drawer_keys m k v hv

/-- Witness for claim C4 at concrete inputs: the out-of-range entry Z9 passes
through unchanged, the canonical key A1 is padded with the empty default. -/
theorem claim_C4_witness :
    (assocLookup (pad_inventory [("Z9", { name := "X", qty := 3 })]) "A1").isSome ∧
    assocLookup (pad_inventory [("Z9", { name := "X", qty := 3 })]) "A1" = some emptyDrawer ∧
    assocLookup (pad_inventory [("Z9", { name := "X", qty := 3 })]) "Z9"
      = some { name := "X", qty := 3 } :=
  ⟨claim_C4_amended.1 [("Z9", { name := "X", qty := 3 })] "A1" (by decide),
   claim_C4_amended.2.1 [("Z9", { name := "X", qty := 3 })] "A1" (by decide) (by decide),
   claim_C4_amended.2.2 [("Z9", { name := "X", qty := 3 })] "Z9" { name := "X", qty := 3 } (by decide)⟩

theorem assocLookup_insert_isSome {α β : Type} [DecidableEq α]
    (l : List (α × β)) (a c : α) (b : β)
    (h : (assocLookup l c).isSome) : (assocLookup (assocInsert l a b) c).isSome := by
  rw [assocLookup_insert]
  by_cases hc : c = a
  · rw [if_pos hc]
    rfl
  · rw [if_neg hc]
    exact h

theorem get_inventory_rows_pres (C : String) :
    ∀ (dbr : DB) (inv : Inv) (k : String),
      (assocLookup inv k).isSome →
      (assocLookup (get_inventory_rows C dbr inv) k).isSome := by
  intro dbr
  induction dbr with
  | nil =>
      intro inv k h
      exact h
  | cons kv rest ih =>
      intro inv k h
      obtain ⟨k0, v0⟩ := kv
      by_cases hc : k0.cabinet = C
      · simp only [get_inventory_rows, if_pos hc]
        exact ih _ _ (assocLookup_insert_isSome _ _ _ _ h)
      · simp only [get_inventory_rows, if_neg hc]
        exact ih _ _ h

theorem get_inventory_rows_mem (C : String) :
    ∀ (dbr : DB) (inv : Inv) (kk : DBKey) (v : Drawer),
      (kk, v) ∈ dbr → kk.cabinet = C →
      (assocLookup (get_inventory_rows C dbr inv) (pyUpper (kk.row ++ kk.column))).isSome := by
  intro dbr
  induction dbr with
  | nil =>
      intro inv kk v h
      cases h
  | cons kv rest ih =>
      intro inv kk v hmem hcab
      obtain ⟨k0, v0⟩ := kv
      rcases List.mem_cons.mp hmem with h0 | hr
      · obtain ⟨h1, h2⟩ := Prod.mk.injEq kk v k0 v0 ▸ h0
        subst h1
        simp only [get_inventory_rows, if_pos hcab]
        apply get_inventory_rows_pres
        rw [assocLookup_insert, if_pos rfl]
        rfl
      · by_cases hc : k0.cabinet = C
        · simp only [get_inventory_rows, if_pos hc]
          exact ih _ _ _ hr hcab
        · simp only [get_inventory_rows, if_neg hc]
          exact ih _ _ _ hr hcab

theorem used_key_not_first_available (db : DB) (C k : String)
    (h : (assocLookup (get_inventory db C) k).isSome) :
    (available_keys db C).head? ≠ some k := by
  intro heq
  have hmem : k ∈ available_keys db C := by
    rcases hl : available_keys db C with _ | ⟨a, rest⟩
    · rw [hl] at heq
      simp at heq
    · rw [hl] at heq
      simp only [List.head?_cons, Option.some.injEq] at heq
      rw [← heq]
      exact List.mem_cons_self a rest
  have hperm : available_keys db C = (generate_all_drawer_keys.filter
      (fun k2 => !(assocLookup (get_inventory db C) k2).isSome)).insertionSort
        (fun a b => pyStrLe a b = true) := rfl
  rw [hperm] at hmem
  have hmem2 := (List.perm_insertionSort
    (fun a b : String => pyStrLe a b = true) _).mem_iff.mp hmem
  have hk := (List.mem_filter.mp hmem2).2
  simp [h] at hk

/-- Claim C10: in the first-available-key computation a key counts as used
whenever a stored record for it exists in the fetched inventory map, even
when that record is {name: "", qty: 0}; consequently a drawer emptied by a
qty-0 delete (update_drawer with "" and 0) or by undoing a Create is still
present in the fetched map and is never chosen as the first available
slot. -/
theorem claim_C10_empty_counts_used :
    (∀ (db : DB) (C k : String),
        (assocLookup (get_inventory db C) k).isSome →
        (available_keys db C).head? ≠ some k) ∧
    (∀ (st : IMState) (id C : String), ¬ id.length < 2 →
        (assocLookup (get_inventory (update_drawer st id "" 0 C).db C)
            (pyUpper (rowOf id ++ colOf id))).isSome ∧
        (available_keys (update_drawer st id "" 0 C).db C).head?
          ≠ some (pyUpper (rowOf id ++ colOf id))) ∧
    (∀ (st : IMState) (id nm C : String) (q : Int), ¬ id.length < 2 →
        get_drawer st.db id C = emptyDrawer →
        (assocLookup (get_inventory (undo (update_drawer st id nm q C)).2.db C)
            (pyUpper (rowOf id ++ colOf id))).isSome ∧
        (available_keys (undo (update_drawer st id nm q C)).2.db C).head?
          ≠ some (pyUpper (rowOf id ++ colOf id))) := by
  refine ⟨?_, ?_, ?_⟩
  · intro db C k h
    exact used_key_not_first_available db C k h
  · intro st id C hlen
    have hdb : (update_drawer st id "" 0 C).db
        = assocInsert st.db (keyOf id C) { name := "", qty := 0 } := by
      rw [update_drawer_db]
      unfold update_drawer_in_db
      rw [if_neg hlen]
    have hmem : (keyOf id C, ({ name := "", qty := 0 } : Drawer))
        ∈ (update_drawer st id "" 0 C).db := by
      rw [hdb]
      exact assocInsert_self_mem _ _ _
    have hsome := get_inventory_rows_mem C (update_drawer st id "" 0 C).db []
      (keyOf id C) { name := "", qty := 0 } hmem rfl
    exact ⟨hsome, used_key_not_first_available _ C _ hsome⟩
  · intro st id nm C q hlen hempty
    have htype : (mkAction st.db id nm q C).type = ActionType.delete := by
      simp only [mkAction]
      rw [if_pos ((drawer_eq_empty_iff _).mp hempty)]
    have hundo : (undo (update_drawer st id nm q C)).2.db
        = undoApplyDb (update_drawer st id nm q C).db (mkAction st.db id nm q C) := by
      rw [undo_cons (update_drawer st id nm q C) _ _ (update_drawer_hist st id nm q C)]
    have hdb : (undo (update_drawer st id nm q C)).2.db
        = assocInsert (update_drawer st id nm q C).db (keyOf id C) { name := "", qty := 0 } := by
      rw [hundo, undoApplyDb_delete _ _ htype]
      show update_drawer_in_db _ id "" 0 C = _
      unfold update_drawer_in_db
      rw [if_neg hlen]
    have hmem : (keyOf id C, ({ name := "", qty := 0 } : Drawer))
        ∈ (undo (update_drawer st id nm q C)).2.db := by
      rw [hdb]
      exact assocInsert_self_mem _ _ _
    have hsome := get_inventory_rows_mem C (undo (update_drawer st id nm q C)).2.db []
      (keyOf id C) { name := "", qty := 0 } hmem rfl
    exact ⟨hsome, used_key_not_first_available _ C _ hsome⟩

/-- Witness for claim C10 at concrete inputs: an existing {"",0} record for
A1 keeps A1 out of the first-available computation, as does a qty-0 delete
of A1 and an undone create of A1. -/
theorem claim_C10_witness :
    ((available_keys [({ cabinet := "Default", row := "A", column := "1" },
        ({ name := "", qty := 0 } : Drawer))] "Default").head? ≠ some "A1") ∧
    ((available_keys (update_drawer ⟨[], [], []⟩ "A1" "" 0 "Default").db "Default").head?
        ≠ some (pyUpper (rowOf "A1" ++ colOf "A1"))) ∧
    ((available_keys (undo (update_drawer ⟨[], [], []⟩ "A1" "Widget" 5 "Default")).2.db
        "Default").head? ≠ some (pyUpper (rowOf "A1" ++ colOf "A1"))) :=
  ⟨claim_C10_empty_counts_used.1
      [({ cabinet := "Default", row := "A", column := "1" }, { name := "", qty := 0 })]
      "Default" "A1" (by decide),
   (claim_C10_empty_counts_used.2.1 ⟨[], [], []⟩ "A1" "Default" (by decide)).2,
   (claim_C10_empty_counts_used.2.2 ⟨[], [], []⟩ "A1" "Widget" "Default" 5 (by decide)
      (by decide)).2⟩

theorem get_drawer_update_self (db : DB) (id nm : String) (q : Int) (C : String)
    (h : ¬ id.length < 2) :
    get_drawer (update_drawer_in_db db id nm q C) id C = { name := nm, qty := q } := by
  rw [get_drawer_update, if_pos ⟨h, h, rfl⟩]

theorem pyUpper_length (s : String) : (pyUpper s).length = s.length := by
  show (s.toList.map Char.toUpper).length = s.length
  rw [List.length_map]
  rfl

theorem ne_empty_of_not_short (s : String) (h : ¬ s.length < 2) : s ≠ "" := by
  intro he
  subst he
  exact h (by decide)

/-- Counterexample to claim C2 as stated: the TXT-import 3-field path does
not implement the zero-quantity delete convention; the record "A1,Widget,0"
leaves the supplied name "Widget" in the stored record instead of "". -/
theorem claim_C2_counterexample :
    get_drawer (import_txt_line "Default" ⟨[], [], []⟩ "A1,Widget,0").db "A1" "Default"
      = { name := "Widget", qty := 0 } ∧
    ({ name := "Widget", qty := 0 } : Drawer) ≠ { name := "", qty := 0 } := by
  constructor
  · decide
  · decide

/-- Claim C2 (amended): only the bulk text update path implements the
zero-quantity delete convention: a 3-field bulk record with qty == 0 stores
{name: "", qty: 0} regardless of the supplied name, while the TXT-import
3-field path stores the supplied name unchanged even when qty == 0 (the
counterexample exhibits this on a concrete line). -/
theorem claim_C2_amended :
    (∀ (st : IMState) (location name qtyStr C : String),
        pyInt? qtyStr = some 0 → ¬ (pyUpper location).length < 2 →
        get_drawer (bulk_three st location name qtyStr C).db (pyUpper location) C
          = emptyDrawer) ∧
    (∀ (st : IMState) (C a b s : String),
        pyInt? s = some 0 → ¬ (pyUpper a).length < 2 →
        get_drawer (txt_apply st C (txt_comma_resolve st.db C [a, b, s])).db (pyUpper a) C
          = { name := b, qty := 0 }) := by
  constructor
  · intro st location name qtyStr C hq hlen
    have h3 : bulk_three st location name qtyStr C = update_drawer st (pyUpper location) "" 0 C := by
      unfold bulk_three
      rw [hq]
      simp
    rw [h3, update_drawer_db, get_drawer_update_self _ _ _ _ _ hlen]
    rfl
  · intro st C a b s hq hlen
    have hres : txt_comma_resolve st.db C [a, b, s] = some (pyUpper a, b, 0) := by
      show (match pyInt? s with
            | some qty => some (pyUpper a, b, qty)
            | none => none) = some (pyUpper a, b, 0)
      rw [hq]
    rw [hres]
    have happ : txt_apply st C (some (pyUpper a, b, 0)) = update_drawer st (pyUpper a) b 0 C := by
      show (if pyUpper a ≠ "" then update_drawer st (pyUpper a) b 0 C else st)
          = update_drawer st (pyUpper a) b 0 C
      rw [if_pos (ne_empty_of_not_short _ hlen)]
    rw [happ, update_drawer_db, get_drawer_update_self _ _ _ _ _ hlen]

/-- Witness for claim C2 (amended) at concrete inputs. -/
theorem claim_C2_witness :
    get_drawer (bulk_three ⟨[], [], []⟩ "a1" "Hammer" "0" "Default").db "A1" "Default"
      = emptyDrawer ∧
    get_drawer (txt_apply ⟨[], [], []⟩ "Default"
        (txt_comma_resolve [] "Default" ["a1", "Hammer", "0"])).db "A1" "Default"
      = { name := "Hammer", qty := 0 } :=
  ⟨claim_C2_amended.1 ⟨[], [], []⟩ "a1" "Hammer" "0" "Default" (by decide) (by decide),
   claim_C2_amended.2 ⟨[], [], []⟩ "Default" "a1" "Hammer" "0" (by decide) (by decide)⟩

theorem head?_mem {α : Type} (l : List α) (a : α) (h : l.head? = some a) : a ∈ l := by
  cases l with
  | nil => cases h
  | cons x xs =>
      simp only [List.head?_cons, Option.some.injEq] at h
      rw [← h]
      exact List.mem_cons_self x xs

theorem generate_keys_length_two : ∀ k ∈ generate_all_drawer_keys, k.length = 2 := by
  decide

theorem available_keys_mem_generate (db : DB) (C loc : String)
    (h : loc ∈ available_keys db C) : loc ∈ generate_all_drawer_keys := by
  unfold available_keys at h
  have hmem := (List.perm_insertionSort
    (fun a b : String => pyStrLe a b = true) _).mem_iff.mp h
  exact (List.mem_filter.mp hmem).1

theorem available_keys_not_short (db : DB) (C loc : String)
    (h : loc ∈ available_keys db C) : ¬ loc.length < 2 := by
  have h2 := generate_keys_length_two loc (available_keys_mem_generate db C loc h)
  omega

theorem bulk_two_key_branch (st : IMState) (inv : Inv) (first second C : String) (q : Int)
    (hmem : (assocLookup inv (pyUpper first)).isSome)
    (hq : pyInt? second = some q) (hq0 : q ≠ 0) :
    bulk_two st inv first second C
      = update_drawer st (pyUpper first)
          ((assocLookup inv (pyUpper first)).getD emptyDrawer).name q C := by
  unfold bulk_two
  rw [if_pos hmem, hq]
  show (if q = 0 then update_drawer st (pyUpper first) "" 0 C
        else update_drawer st (pyUpper first)
          ((assocLookup inv (pyUpper first)).getD emptyDrawer).name q C) = _
  rw [if_neg hq0]

theorem bulk_two_key_branch_zero (st : IMState) (inv : Inv) (first second C : String)
    (hmem : (assocLookup inv (pyUpper first)).isSome)
    (hq : pyInt? second = some 0) :
    bulk_two st inv first second C = update_drawer st (pyUpper first) "" 0 C := by
  unfold bulk_two
  rw [if_pos hmem, hq]
  show (if (0 : Int) = 0 then update_drawer st (pyUpper first) "" 0 C
        else update_drawer st (pyUpper first)
          ((assocLookup inv (pyUpper first)).getD emptyDrawer).name 0 C) = _
  rw [if_pos rfl]

theorem bulk_two_name_branch (st : IMState) (inv : Inv) (first second C m : String) (q : Int)
    (hnomem : ¬ (assocLookup inv (pyUpper first)).isSome)
    (hfind : find_name_match inv (pyStrip first) = some m)
    (hq : pyInt? second = some q) (hq0 : q ≠ 0) :
    bulk_two st inv first second C = update_drawer st m (pyStrip first) q C := by
  unfold bulk_two
  rw [if_neg hnomem, hq]
  show (match find_name_match inv (pyStrip first) with
        | some m2 => if q = 0 then update_drawer st m2 "" 0 C
                     else update_drawer st m2 (pyStrip first) q C
        | none =>
            match (available_keys st.db C).head? with
            | some location => update_drawer st location (pyStrip first) q C
            | none => st) = _
  rw [hfind]
  show (if q = 0 then update_drawer st m "" 0 C
        else update_drawer st m (pyStrip first) q C) = _
  rw [if_neg hq0]

theorem bulk_two_name_branch_zero (st : IMState) (inv : Inv) (first second C m : String)
    (hnomem : ¬ (assocLookup inv (pyUpper first)).isSome)
    (hfind : find_name_match inv (pyStrip first) = some m)
    (hq : pyInt? second = some 0) :
    bulk_two st inv first second C = update_drawer st m "" 0 C := by
  unfold bulk_two
  rw [if_neg hnomem, hq]
  show (match find_name_match inv (pyStrip first) with
        | some m2 => if (0 : Int) = 0 then update_drawer st m2 "" 0 C
                     else update_drawer st m2 (pyStrip first) 0 C
        | none =>
            match (available_keys st.db C).head? with
            | some location => update_drawer st location (pyStrip first) 0 C
            | none => st) = _
  rw [hfind]
  show (if (0 : Int) = 0 then update_drawer st m "" 0 C
        else update_drawer st m (pyStrip first) 0 C) = _
  rw [if_pos rfl]

theorem bulk_two_assign_branch (st : IMState) (inv : Inv) (first second C loc : String) (q : Int)
    (hnomem : ¬ (assocLookup inv (pyUpper first)).isSome)
    (hfind : find_name_match inv (pyStrip first) = none)
    (hq : pyInt? second = some q)
    (hhead : (available_keys st.db C).head? = some loc) :
    bulk_two st inv first second C = update_drawer st loc (pyStrip first) q C := by
  unfold bulk_two
  rw [if_neg hnomem, hq]
  show (match find_name_match inv (pyStrip first) with
        | some m2 => if q = 0 then update_drawer st m2 "" 0 C
                     else update_drawer st m2 (pyStrip first) q C
        | none =>
            match (available_keys st.db C).head? with
            | some location => update_drawer st location (pyStrip first) q C
            | none => st) = _
  rw [hfind]
  show (match (available_keys st.db C).head? with
        | some location => update_drawer st location (pyStrip first) q C
        | none => st) = _
  rw [hhead]

theorem bulk_two_full_skip (st : IMState) (inv : Inv) (first second C : String) (q : Int)
    (hnomem : ¬ (assocLookup inv (pyUpper first)).isSome)
    (hfind : find_name_match inv (pyStrip first) = none)
    (hq : pyInt? second = some q)
    (hhead : available_keys st.db C = []) :
    bulk_two st inv first second C = st := by
  unfold bulk_two
  rw [if_neg hnomem, hq]
  show (match find_name_match inv (pyStrip first) with
        | some m2 => if q = 0 then update_drawer st m2 "" 0 C
                     else update_drawer st m2 (pyStrip first) q C
        | none =>
            match (available_keys st.db C).head? with
            | some location => update_drawer st location (pyStrip first) q C
            | none => st) = _
  rw [hfind]
  show (match (available_keys st.db C).head? with
        | some location => update_drawer st location (pyStrip first) q C
        | none => st) = _
  rw [hhead]
  rfl

theorem txt_two_key_branch (db : DB) (C a s : String) (q : Int)
    (hmem : (assocLookup (get_inventory db C) (pyUpper a)).isSome)
    (hq : pyInt? s = some q) :
    txt_comma_resolve db C [a, s]
      = some (pyUpper a, (get_drawer db (pyUpper a) C).name, q) := by
  show (match pyInt? s with
        | none => none
        | some potential_qty =>
            if (assocLookup (get_inventory db C) (pyUpper a)).isSome then
              some (pyUpper a, (get_drawer db (pyUpper a) C).name, potential_qty)
            else
              match find_name_match (get_inventory db C) a with
              | some matched_id => some (matched_id, a, potential_qty)
              | none =>
                  match (available_keys db C).head? with
                  | some k => some (k, a, potential_qty)
                  | none => none) = _
  rw [hq]
  show (if (assocLookup (get_inventory db C) (pyUpper a)).isSome then
          some (pyUpper a, (get_drawer db (pyUpper a) C).name, q)
        else
          match find_name_match (get_inventory db C) a with
          | some matched_id => some (matched_id, a, q)
          | none =>
              match (available_keys db C).head? with
              | some k => some (k, a, q)
              | none => none) = _
  rw [if_pos hmem]

theorem txt_two_name_branch (db : DB) (C a s m : String) (q : Int)
    (hnomem : ¬ (assocLookup (get_inventory db C) (pyUpper a)).isSome)
    (hfind : find_name_match (get_inventory db C) a = some m)
    (hq : pyInt? s = some q) :
    txt_comma_resolve db C [a, s] = some (m, a, q) := by
  show (match pyInt? s with
        | none => none
        | some potential_qty =>
            if (assocLookup (get_inventory db C) (pyUpper a)).isSome then
              some (pyUpper a, (get_drawer db (pyUpper a) C).name, potential_qty)
            else
              match find_name_match (get_inventory db C) a with
              | some matched_id => some (matched_id, a, potential_qty)
              | none =>
                  match (available_keys db C).head? with
                  | some k => some (k, a, potential_qty)
                  | none => none) = _
  rw [hq]
  show (if (assocLookup (get_inventory db C) (pyUpper a)).isSome then
          some (pyUpper a, (get_drawer db (pyUpper a) C).name, q)
        else
          match find_name_match (get_inventory db C) a with
          | some matched_id => some (matched_id, a, q)
          | none =>
              match (available_keys db C).head? with
              | some k => some (k, a, q)
              | none => none) = _
  rw [if_neg hnomem, hfind]

theorem txt_two_assign_branch (db : DB) (C a s loc : String) (q : Int)
    (hnomem : ¬ (assocLookup (get_inventory db C) (pyUpper a)).isSome)
    (hfind : find_name_match (get_inventory db C) a = none)
    (hq : pyInt? s = some q)
    (hhead : (available_keys db C).head? = some loc) :
    txt_comma_resolve db C [a, s] = some (loc, a, q) := by
  show (match pyInt? s with
        | none => none
        | some potential_qty =>
            if (assocLookup (get_inventory db C) (pyUpper a)).isSome then
              some (pyUpper a, (get_drawer db (pyUpper a) C).name, potential_qty)
            else
              match find_name_match (get_inventory db C) a with
              | some matched_id => some (matched_id, a, potential_qty)
              | none =>
                  match (available_keys db C).head? with
                  | some k => some (k, a, potential_qty)
                  | none => none) = _
  rw [hq]
  show (if (assocLookup (get_inventory db C) (pyUpper a)).isSome then
          some (pyUpper a, (get_drawer db (pyUpper a) C).name, q)
        else
          match find_name_match (get_inventory db C) a with
          | some matched_id => some (matched_id, a, q)
          | none =>
              match (available_keys db C).head? with
              | some k => some (k, a, q)
              | none => none) = _
  rw [if_neg hnomem, hfind, hhead]

theorem txt_two_full_none (db : DB) (C a s : String) (q : Int)
    (hnomem : ¬ (assocLookup (get_inventory db C) (pyUpper a)).isSome)
    (hfind : find_name_match (get_inventory db C) a = none)
    (hq : pyInt? s = some q)
    (hhead : (available_keys db C).head? = none) :
    txt_comma_resolve db C [a, s] = none := by
  show (match pyInt? s with
        | none => none
        | some potential_qty =>
            if (assocLookup (get_inventory db C) (pyUpper a)).isSome then
              some (pyUpper a, (get_drawer db (pyUpper a) C).name, potential_qty)
            else
              match find_name_match (get_inventory db C) a with
              | some matched_id => some (matched_id, a, potential_qty)
              | none =>
                  match (available_keys db C).head? with
                  | some k => some (k, a, potential_qty)
                  | none => none) = _
  rw [hq]
  show (if (assocLookup (get_inventory db C) (pyUpper a)).isSome then
          some (pyUpper a, (get_drawer db (pyUpper a) C).name, q)
        else
          match find_name_match (get_inventory db C) a with
          | some matched_id => some (matched_id, a, q)
          | none =>
              match (available_keys db C).head? with
              | some k => some (k, a, q)
              | none => none) = _
  rw [if_neg hnomem, hfind, hhead]

set_option maxRecDepth 4000 in
/-- Counterexample to claim C3 as stated: with inventory {B3 -> (Bolts, 2)},
the bulk 2-field record "B3,0" resolves to the existing key B3 but clears
the stored name instead of preserving it (the qty == 0 sub-branch the claim
omits); and the valid key-space has 48 keys, not 31. -/
theorem claim_C3_counterexample :
    get_drawer (bulk_update_run
        ⟨[({ cabinet := "Default", row := "B", column := "3" },
           { name := "Bolts", qty := 2 })], [], []⟩ ["B3,0"] "Default").db "B3" "Default"
      = { name := "", qty := 0 } ∧
    ({ name := "", qty := 0 } : Drawer) ≠ { name := "Bolts", qty := 0 } ∧
    generate_all_drawer_keys.length = 48 ∧ ¬ generate_all_drawer_keys.length = 31 := by
  refine ⟨?_, ?_, ?_, ?_⟩ <;> decide

/-- Claim C3 (amended): for a 2-field record (first, qty) in the bulk text
path and the TXT import path: if first uppercased is a key of the snapshot
the path consults (padded for bulk, unpadded for TXT), that drawer gets
quantity qty with its existing name preserved, except that the bulk path
clears the drawer to {"", 0} when qty == 0; else, if a drawer's stored name
equals first case-insensitively, the first such drawer gets quantity qty
(name set to first; the bulk path again clears on qty == 0); else the record
is written to the first available key, computed as the 48 (not 31) valid
keys minus the used keys sorted ascending, and when no key is available the
record is skipped, leaving the state unchanged, without aborting the batch
(the surrounding loops are folds over the remaining lines). -/
theorem claim_C3_amended :
    (∀ (st : IMState) (inv : Inv) (first second C : String) (q : Int),
        (assocLookup inv (pyUpper first)).isSome → pyInt? second = some q → q ≠ 0 →
        ¬ (pyUpper first).length < 2 →
        get_drawer (bulk_two st inv first second C).db (pyUpper first) C
          = { name := ((assocLookup inv (pyUpper first)).getD emptyDrawer).name, qty := q }) ∧
    (∀ (st : IMState) (inv : Inv) (first second C : String),
        (assocLookup inv (pyUpper first)).isSome → pyInt? second = some 0 →
        ¬ (pyUpper first).length < 2 →
        get_drawer (bulk_two st inv first second C).db (pyUpper first) C = emptyDrawer) ∧
    (∀ (st : IMState) (inv : Inv) (first second C m : String) (q : Int),
        ¬ (assocLookup inv (pyUpper first)).isSome →
        find_name_match inv (pyStrip first) = some m →
        pyInt? second = some q → q ≠ 0 → ¬ m.length < 2 →
        get_drawer (bulk_two st inv first second C).db m C
          = { name := pyStrip first, qty := q }) ∧
    (∀ (st : IMState) (inv : Inv) (first second C m : String),
        ¬ (assocLookup inv (pyUpper first)).isSome →
        find_name_match inv (pyStrip first) = some m →
        pyInt? second = some 0 → ¬ m.length < 2 →
        get_drawer (bulk_two st inv first second C).db m C = emptyDrawer) ∧
    (∀ (st : IMState) (inv : Inv) (first second C loc : String) (q : Int),
        ¬ (assocLookup inv (pyUpper first)).isSome →
        find_name_match inv (pyStrip first) = none →
        pyInt? second = some q →
        (available_keys st.db C).head? = some loc →
        get_drawer (bulk_two st inv first second C).db loc C
          = { name := pyStrip first, qty := q }) ∧
    (∀ (st : IMState) (inv : Inv) (first second C : String) (q : Int),
        ¬ (assocLookup inv (pyUpper first)).isSome →
        find_name_match inv (pyStrip first) = none →
        pyInt? second = some q →
        available_keys st.db C = [] →
        bulk_two st inv first second C = st) ∧
    (∀ (st : IMState) (C a s : String) (q : Int),
        (assocLookup (get_inventory st.db C) (pyUpper a)).isSome →
        pyInt? s = some q → ¬ (pyUpper a).length < 2 →
        get_drawer (txt_apply st C (txt_comma_resolve st.db C [a, s])).db (pyUpper a) C
          = { name := (get_drawer st.db (pyUpper a) C).name, qty := q }) ∧
    (∀ (st : IMState) (C a s m : String) (q : Int),
        ¬ (assocLookup (get_inventory st.db C) (pyUpper a)).isSome →
        find_name_match (get_inventory st.db C) a = some m →
        pyInt? s = some q → ¬ m.length < 2 →
        get_drawer (txt_apply st C (txt_comma_resolve st.db C [a, s])).db m C
          = { name := a, qty := q }) ∧
    (∀ (st : IMState) (C a s loc : String) (q : Int),
        ¬ (assocLookup (get_inventory st.db C) (pyUpper a)).isSome →
        find_name_match (get_inventory st.db C) a = none →
        pyInt? s = some q →
        (available_keys st.db C).head? = some loc →
        get_drawer (txt_apply st C (txt_comma_resolve st.db C [a, s])).db loc C
          = { name := a, qty := q }) ∧
    (∀ (st : IMState) (C a s : String) (q : Int),
        ¬ (assocLookup (get_inventory st.db C) (pyUpper a)).isSome →
        find_name_match (get_inventory st.db C) a = none →
        pyInt? s = some q →
        (available_keys st.db C).head? = none →
        txt_comma_resolve st.db C [a, s] = none ∧
        txt_apply st C (txt_comma_resolve st.db C [a, s]) = st) := by
  refine ⟨?_, ?_, ?_, ?_, ?_, ?_, ?_, ?_, ?_, ?_⟩
  · intro st inv first second C q hmem hq hq0 hlen
    rw [bulk_two_key_branch st inv first second C q hmem hq hq0, update_drawer_db,
        get_drawer_update_self _ _ _ _ _ hlen]
  · intro st inv first second C hmem hq hlen
    rw [bulk_two_key_branch_zero st inv first second C hmem hq, update_drawer_db,
        get_drawer_update_self _ _ _ _ _ hlen]
    rfl
  · intro st inv first second C m q hnomem hfind hq hq0 hmlen
    rw [bulk_two_name_branch st inv first second C m q hnomem hfind hq hq0,
        update_drawer_db, get_drawer_update_self _ _ _ _ _ hmlen]
  · intro st inv first second C m hnomem hfind hq hmlen
    rw [bulk_two_name_branch_zero st inv first second C m hnomem hfind hq,
        update_drawer_db, get_drawer_update_self _ _ _ _ _ hmlen]
    rfl
  · intro st inv first second C loc q hnomem hfind hq hhead
    have hlen := available_keys_not_short st.db C loc (head?_mem _ _ hhead)
    rw [bulk_two_assign_branch st inv first second C loc q hnomem hfind hq hhead,
        update_drawer_db, get_drawer_update_self _ _ _ _ _ hlen]
  · intro st inv first second C q hnomem hfind hq hempty
    exact bulk_two_full_skip st inv first second C q hnomem hfind hq hempty
  · intro st C a s q hmem hq hlen
    rw [txt_two_key_branch st.db C a s q hmem hq]
    have happ : txt_apply st C (some (pyUpper a, (get_drawer st.db (pyUpper a) C).name, q))
        = update_drawer st (pyUpper a) (get_drawer st.db (pyUpper a) C).name q C := by
      show (if pyUpper a ≠ "" then
              update_drawer st (pyUpper a) (get_drawer st.db (pyUpper a) C).name q C
            else st) = _
      rw [if_pos (ne_empty_of_not_short _ hlen)]
    rw [happ, update_drawer_db, get_drawer_update_self _ _ _ _ _ hlen]
  · intro st C a s m q hnomem hfind hq hmlen
    rw [txt_two_name_branch st.db C a s m q hnomem hfind hq]
    have happ : txt_apply st C (some (m, a, q)) = update_drawer st m a q C := by
      show (if m ≠ "" then update_drawer st m a q C else st) = _
      rw [if_pos (ne_empty_of_not_short _ hmlen)]
    rw [happ, update_drawer_db, get_drawer_update_self _ _ _ _ _ hmlen]
  · intro st C a s loc q hnomem hfind hq hhead
    have hlen := available_keys_not_short st.db C loc (head?_mem _ _ hhead)
    rw [txt_two_assign_branch st.db C a s loc q hnomem hfind hq hhead]
    have happ : txt_apply st C (some (loc, a, q)) = update_drawer st loc a q C := by
      show (if loc ≠ "" then update_drawer st loc a q C else st) = _
      rw [if_pos (ne_empty_of_not_short _ hlen)]
    rw [happ, update_drawer_db, get_drawer_update_self _ _ _ _ _ hlen]
  · intro st C a s q hnomem hfind hq hhead
    have hres := txt_two_full_none st.db C a s q hnomem hfind hq hhead
    refine ⟨hres, ?_⟩
    rw [hres]
    rfl

/-- A one-entry database: drawer B3 of cabinet Default holds (Bolts, 2). -/
def db1 : DB :=
  [({ cabinet := "Default", row := "B", column := "3" }, { name := "Bolts", qty := 2 })]

/-- Manager state over db1 with empty stacks. -/
def st1 : IMState := ⟨db1, [], []⟩

/-- The padded bulk-update snapshot of db1. -/
def inv1 : Inv := pad_inventory (get_inventory db1 "Default")

/-- A database in which every canonical drawer key of cabinet Default is
occupied. -/
def fullDb : DB :=
  generate_all_drawer_keys.map (fun k =>
    ({ cabinet := "Default", row := pySlice k 0 1, column := pySlice k 1 2 },
     { name := "x", qty := 1 }))

/-- Manager state over fullDb with empty stacks. -/
def stFull : IMState := ⟨fullDb, [], []⟩

/-- The padded bulk-update snapshot of fullDb. -/
def invFull : Inv := pad_inventory (get_inventory fullDb "Default")

set_option maxRecDepth 8000 in
/-- Witness for claim C3 (amended), instantiating every branch: direct key
reference (nonzero and zero qty), case-insensitive name match (nonzero and
zero qty), first-available-key assignment, and the full-cabinet skip, on
both the bulk path and the TXT path. -/
theorem claim_C3_witness :
    get_drawer (bulk_two st1 inv1 "B3" "7" "Default").db (pyUpper "B3") "Default"
      = { name := ((assocLookup inv1 (pyUpper "B3")).getD emptyDrawer).name, qty := 7 } ∧
    get_drawer (bulk_two st1 inv1 "B3" "0" "Default").db (pyUpper "B3") "Default"
      = emptyDrawer ∧
    get_drawer (bulk_two st1 inv1 "Bolts" "9" "Default").db "B3" "Default"
      = { name := pyStrip "Bolts", qty := 9 } ∧
    get_drawer (bulk_two st1 inv1 "Bolts" "0" "Default").db "B3" "Default" = emptyDrawer ∧
    get_drawer (bulk_two st1 inv1 "Screws" "4" "Default").db "A1" "Default"
      = { name := pyStrip "Screws", qty := 4 } ∧
    bulk_two stFull invFull "Screws" "4" "Default" = stFull ∧
    get_drawer (txt_apply st1 "Default" (txt_comma_resolve st1.db "Default" ["B3", "7"])).db
        (pyUpper "B3") "Default"
      = { name := (get_drawer st1.db (pyUpper "B3") "Default").name, qty := 7 } ∧
    get_drawer (txt_apply st1 "Default" (txt_comma_resolve st1.db "Default" ["Bolts", "9"])).db
        "B3" "Default" = { name := "Bolts", qty := 9 } ∧
    get_drawer (txt_apply st1 "Default" (txt_comma_resolve st1.db "Default" ["Screws", "4"])).db
        "A1" "Default" = { name := "Screws", qty := 4 } ∧
    (txt_comma_resolve stFull.db "Default" ["Screws", "4"] = none ∧
     txt_apply stFull "Default" (txt_comma_resolve stFull.db "Default" ["Screws", "4"]) = stFull) :=
  ⟨claim_C3_amended.1 st1 inv1 "B3" "7" "Default" 7
      (by decide) (by decide) (by decide) (by decide),
   claim_C3_amended.2.1 st1 inv1 "B3" "0" "Default" (by decide) (by decide) (by decide),
   claim_C3_amended.2.2.1 st1 inv1 "Bolts" "9" "Default" "B3" 9
      (by decide) (by decide) (by decide) (by decide) (by decide),
   claim_C3_amended.2.2.2.1 st1 inv1 "Bolts" "0" "Default" "B3"
      (by decide) (by decide) (by decide) (by decide),
   claim_C3_amended.2.2.2.2.1 st1 inv1 "Screws" "4" "Default" "A1" 4
      (by decide) (by decide) (by decide) (by decide),
   claim_C3_amended.2.2.2.2.2.1 stFull invFull "Screws" "4" "Default" 4
      (by decide) (by decide) (by decide) (by decide),
   claim_C3_amended.2.2.2.2.2.2.1 st1 "Default" "B3" "7" 7
      (by decide) (by decide) (by decide),
   claim_C3_amended.2.2.2.2.2.2.2.1 st1 "Default" "Bolts" "9" "B3" 9
      (by decide) (by decide) (by decide) (by decide),
   claim_C3_amended.2.2.2.2.2.2.2.2.1 st1 "Default" "Screws" "4" "A1" 4
      (by decide) (by decide) (by decide) (by decide),
   claim_C3_amended.2.2.2.2.2.2.2.2.2 stFull "Default" "Screws" "4" 4
      (by decide) (by decide) (by decide) (by decide)⟩

theorem toList_mk (l : List Char) : (String.mk l).toList = l := rfl

theorem mk_append (a b : List Char) : String.mk a ++ String.mk b = String.mk (a ++ b) := rfl

theorem splitChar_ne_nil (sep : Char) :
    ∀ (l acc : List Char), splitChar sep l acc ≠ [] := by
  intro l
  induction l with
  | nil =>
      intro acc
      simp [splitChar]
  | cons c cs ih =>
      intro acc
      by_cases hc : c = sep
      · simp [splitChar, hc]
      · simp only [splitChar, if_neg hc]
        exact ih _

theorem splitChar_append (sep : Char) :
    ∀ (l1 : List Char), sep ∉ l1 → ∀ (l2 acc : List Char),
      splitChar sep (l1 ++ sep :: l2) acc = (acc.reverse ++ l1) :: splitChar sep l2 [] := by
  intro l1
  induction l1 with
  | nil =>
      intro _ l2 acc
      simp [splitChar]
  | cons c cs ih =>
      intro h l2 acc
      have hc : ¬ c = sep := fun he => h (he ▸ List.mem_cons_self c cs)
      show splitChar sep (c :: (cs ++ sep :: l2)) acc = _
      simp only [splitChar, if_neg hc]
      rw [ih (fun hm => h (List.mem_cons_of_mem c hm)) l2 (c :: acc)]
      simp [List.append_assoc]

theorem pyJoin_splitChar (sep : Char) :
    ∀ (l acc : List Char),
      pyJoin sep ((splitChar sep l acc).map String.mk) = String.mk (acc.reverse ++ l) := by
  intro l
  induction l with
  | nil =>
      intro acc
      simp [splitChar, pyJoin]
  | cons c cs ih =>
      intro acc
      by_cases hc : c = sep
      · subst hc
        show pyJoin c ((splitChar c (c :: cs) acc).map String.mk) = _
        simp only [splitChar, if_pos rfl]
        rcases hsc : splitChar c cs [] with _ | ⟨y, ys⟩
        · exact absurd hsc (splitChar_ne_nil c cs [])
        · have ihc := ih []
          rw [hsc] at ihc
          simp only [List.map_cons, List.reverse_nil, List.nil_append] at ihc
          show String.mk acc.reverse ++ String.mk [c]
              ++ pyJoin c (String.mk y :: ys.map String.mk) = _
          rw [ihc]
          rw [mk_append, mk_append]
          simp [List.append_assoc]
      · show pyJoin sep ((splitChar sep (c :: cs) acc).map String.mk) = _
        simp only [splitChar, if_neg hc]
        rw [ih (c :: acc)]
        simp [List.append_assoc]

theorem findIdx_append_cons (c : Char) :
    ∀ (l1 : List Char), c ∉ l1 → ∀ (l2 : List Char) (i : Nat),
      findIdx c (l1 ++ c :: l2) i = some (i + l1.length) := by
  intro l1
  induction l1 with
  | nil =>
      intro _ l2 i
      simp [findIdx]
  | cons x xs ih =>
      intro h l2 i
      have hx : ¬ x = c := fun he => h (he ▸ List.mem_cons_self x xs)
      show findIdx c (x :: (xs ++ c :: l2)) i = _
      simp only [findIdx, if_neg hx]
      rw [ih (fun hm => h (List.mem_cons_of_mem x hm)) l2 (i + 1)]
      congr 1
      simp only [List.length_cons]
      omega

theorem findIdx_cons_self (c : Char) (l : List Char) (i : Nat) :
    findIdx c (c :: l) i = some i := by
  simp [findIdx]

theorem pyFind_mk_append (c : Char) (l1 l2 : List Char) (h : c ∉ l1) :
    pyFind c (String.mk (l1 ++ c :: l2)) = some l1.length := by
  show findIdx c (l1 ++ c :: l2) 0 = some l1.length
  rw [findIdx_append_cons c l1 h l2 0]
  simp

theorem pyRfind_mk_concat (l : List Char) (c : Char) :
    pyRfind c (String.mk (l ++ [c])) = some l.length := by
  show (findIdx c (l ++ [c]).reverse 0).map
      (fun i => (l ++ [c]).length - 1 - i) = some l.length
  have hrev : (l ++ [c]).reverse = c :: l.reverse := by
    simp
  rw [hrev, findIdx_cons_self]
  simp

theorem pyStrip_mk_eq (L : List Char)
    (h1 : L.dropWhile isPySpace = L)
    (h2 : L.reverse.dropWhile isPySpace = L.reverse) :
    pyStrip (String.mk L) = String.mk L := by
  show String.mk (((L.dropWhile isPySpace).reverse.dropWhile isPySpace).reverse) = String.mk L
  rw [h1, h2, List.reverse_reverse]

theorem headD_append_cons (l : List Char) (c d : Char) (rest : List Char) :
    (l ++ c :: rest).headD d = l.headD c := by
  cases l <;> rfl

theorem dropWhile_eq_self_headD (L : List Char) (d : Char)
    (h : isPySpace (L.headD d) = false) :
    L.dropWhile isPySpace = L := by
  cases L with
  | nil => rfl
  | cons x xs =>
      simp only [List.headD_cons] at h
      simp [List.dropWhile_cons, h]

set_option maxRecDepth 4000 in
/-- Counterexample to claim C8 as stated: on the line
"A1: Widget (2) extra (3)" the claim's last-matching-pair reading yields
(A1, "Widget (2) extra", 3), but the code takes the span from first '(' to
last ')' ("2) extra (3"), fails to parse it as an integer, falls back to the
comma parser, and skips the line entirely (the state is unchanged). -/
theorem claim_C8_counterexample :
    import_txt_line "Default" ⟨[], [], []⟩ "A1: Widget (2) extra (3)" = ⟨[], [], []⟩ ∧
    spec_txt_last_pair "A1: Widget (2) extra (3)" = some ("A1", "Widget (2) extra", 3) := by
  constructor <;> decide

/-- Claim C8 (amended): for a TXT line of the shape "ID: NAME (QTY)" the
parser splits at the first ':' to obtain the drawer id, then takes the
quantity from the span between the first '(' and the last ')' of the
remainder, with the text before the first '(' as the name; whenever the
first-shape parse yields nothing (shape gate fails, the span is not an
integer, or the parentheses are mismatched), the line falls back to the
comma-separated 2/3-field parser. Stated constructively: the id part
contains no ':', the name part contains no '(' and does not start with
whitespace, and the quantity span parses as an integer q. -/
theorem claim_C8_amended (idL nmL qsL : List Char) (st : IMState) (Cb : String)
    (q : Int) (line2 : String)
    (h1 : ':' ∉ idL)
    (h2 : '(' ∉ nmL)
    (h3 : isPySpace (nmL.headD '(') = false)
    (hq : pyInt? (pyStrip (String.mk qsL)) = some q)
    (hfb : txt_first_format (pyStrip line2) = none)
    (hne : ¬ pyStrip line2 = "") :
    txt_first_format (String.mk (idL ++ ':' :: (nmL ++ '(' :: (qsL ++ [')']))))
      = some (pyUpper (pyStrip (String.mk idL)), pyStrip (String.mk nmL), q) ∧
    import_txt_line Cb st line2
      = txt_apply st Cb (txt_comma_resolve st.db Cb
          ((pySplit ',' (pyStrip line2)).map pyStrip)) := by
  constructor
  · set R := nmL ++ '(' :: (qsL ++ [')']) with hR
    set S := nmL ++ '(' :: qsL with hS
    have hRS : R = S ++ [')'] := by
      rw [hR, hS]
      simp [List.append_assoc]
    have hg1 : ':' ∈ idL ++ ':' :: R := by simp
    have hg2 : '(' ∈ idL ++ ':' :: R := by
      rw [hR]
      simp
    have hg3 : ')' ∈ idL ++ ':' :: R := by
      rw [hR]
      simp
    have hsplit : pySplit ':' (String.mk (idL ++ ':' :: R))
        = String.mk idL :: (splitChar ':' R []).map String.mk := by
      show (splitChar ':' (idL ++ ':' :: R) []).map String.mk = _
      rw [splitChar_append ':' idL h1 R []]
      simp
    have hjoin : pyJoin ':' ((splitChar ':' R []).map String.mk) = String.mk R := by
      rw [pyJoin_splitChar]
      simp
    have hstrip : pyStrip (String.mk R) = String.mk R := by
      apply pyStrip_mk_eq
      · apply dropWhile_eq_self_headD R '('
        rw [hR, headD_append_cons]
        exact h3
      · apply dropWhile_eq_self_headD R.reverse ')'
        have hrev : R.reverse = ')' :: S.reverse := by
          rw [hRS]
          simp
        rw [hrev]
        simp only [List.headD_cons]
        decide
    have hfindp : pyFind '(' (String.mk R) = some nmL.length := by
      rw [hR]
      exact pyFind_mk_append '(' nmL (qsL ++ [')']) h2
    have hrfindp : pyRfind ')' (String.mk R) = some S.length := by
      rw [hRS]
      exact pyRfind_mk_concat S ')'
    have hSlen : S.length = nmL.length + 1 + qsL.length := by
      rw [hS]
      simp
      omega
    have hlt : nmL.length < S.length := by omega
    have hslice1 : pySlice (String.mk R) (nmL.length + 1) S.length = String.mk qsL := by
      show String.mk ((R.drop (nmL.length + 1)).take (S.length - (nmL.length + 1)))
          = String.mk qsL
      have hR2 : R = (nmL ++ ['(']) ++ (qsL ++ [')']) := by
        rw [hR]
        simp [List.append_assoc]
      have hdrop : R.drop (nmL.length + 1) = qsL ++ [')'] := by
        rw [hR2]
        apply List.drop_left'
        simp
      have htake : (qsL ++ [')']).take (S.length - (nmL.length + 1)) = qsL := by
        apply List.take_left'
        omega
      rw [hdrop, htake]
    have hslice0 : pySlice (String.mk R) 0 nmL.length = String.mk nmL := by
      show String.mk ((R.drop 0).take (nmL.length - 0)) = String.mk nmL
      rw [List.drop_zero, Nat.sub_zero, hR]
      have : (nmL ++ '(' :: (qsL ++ [')'])).take nmL.length = nmL := List.take_left nmL _
      rw [this]
    show txt_first_format (String.mk (idL ++ ':' :: R)) = _
    simp only [txt_first_format, toList_mk]
    rw [if_pos ⟨hg1, hg2, hg3⟩]
    simp only [hsplit, List.headD_cons, List.drop_succ_cons, List.drop_zero]
    simp only [hjoin, hstrip, hfindp, hrfindp]
    rw [if_pos hlt]
    simp only [hslice1, hq, hslice0]
  · unfold import_txt_line
    rw [if_neg hne, hfb]

set_option maxRecDepth 4000 in
/-- Witness for claim C8 (amended) at concrete inputs: the line
"B2:Widget(7)" parses to (B2, Widget, 7) through the first shape, and the
comma-shaped line "A1,Hammer,4" falls back to the comma parser. -/
theorem claim_C8_witness :
    txt_first_format (String.mk (['B', '2'] ++ ':'
        :: (['W', 'i', 'd', 'g', 'e', 't'] ++ '(' :: (['7'] ++ [')']))))
      = some (pyUpper (pyStrip (String.mk ['B', '2'])),
              pyStrip (String.mk ['W', 'i', 'd', 'g', 'e', 't']), 7) ∧
    import_txt_line "Default" ⟨[], [], []⟩ "A1,Hammer,4"
      = txt_apply ⟨[], [], []⟩ "Default"
          (txt_comma_resolve (⟨[], [], []⟩ : IMState).db "Default"
            ((pySplit ',' (pyStrip "A1,Hammer,4")).map pyStrip)) :=
  claim_C8_amended ['B', '2'] ['W', 'i', 'd', 'g', 'e', 't'] ['7'] ⟨[], [], []⟩
    "Default" 7 "A1,Hammer,4" (by decide) (by decide) (by decide) (by decide)
    (by decide) (by decide)
